import Mathlib

/-!
Shallow embedding of `Sources/CLinuxAffinity/ProcessorAffinity.c`.

The C source contains one function:

    int linux_sched_getaffinity() {
        cpu_set_t mask;
        long nproc, i, count = 0;
        if (sched_getaffinity(0, sizeof(cpu_set_t), &mask) == -1) {
            return -1;
        } else {
            nproc = sysconf(_SC_NPROCESSORS_ONLN);
            for (i = 0; i < nproc; i++) {
                if(CPU_ISSET(i, &mask))
                    count += 1;
            }
            return count;
        }
    }

The embedding makes the two OS queries explicit as an environment:
`sched_getaffinity` either fails (modelled as `none`) or fills the local
`cpu_set_t` with the process affinity mask (modelled as `some mask`), and
`sysconf(_SC_NPROCESSORS_ONLN)` yields a `long` (modelled as `Int`, since it
can be negative on failure).  `cpu_set_t` is a fixed-capacity bitset of
`CPU_SETSIZE` bits; glibc's `CPU_ISSET` reports `0` for any index at or
beyond that capacity.
-/

/-- Bit capacity of the fixed-size `cpu_set_t` type (1024 in glibc). -/
def CPU_SETSIZE : Nat := 1024

/-- The `cpu_set_t` affinity mask: a fixed-capacity bitset over logical CPU
indices, `true` at position `j` meaning CPU `j` is in the affinity set. -/
abbrev cpu_set_t := Fin CPU_SETSIZE → Bool

/-- Glibc `CPU_ISSET(i, &set)`: test bit `i` of the set; indices at or beyond
`CPU_SETSIZE` are reported as not set. -/
def CPU_ISSET (i : Nat) (set : cpu_set_t) : Bool :=
  if h : i < CPU_SETSIZE then set ⟨i, h⟩ else false

/-- Outcome of the two OS queries observed during one call:
`maskResult` is what `sched_getaffinity(0, sizeof(cpu_set_t), &mask)`
produces (`none` models the `-1` failure return, `some mask` models success
with the local `mask` filled in), and `nproc` is the `long` value returned by
`sysconf(_SC_NPROCESSORS_ONLN)`. -/
structure AffinityEnv where
  maskResult : Option cpu_set_t
  nproc : Int

/-- The accumulation performed by the `for (i = 0; i < nproc; i++)` loop
restricted to the first `n` iterations: the running `count` after testing
indices `0, 1, ..., n-1` with `CPU_ISSET`. -/
def countSetBits (mask : cpu_set_t) : Nat → Nat
  | 0 => 0
  | n + 1 => countSetBits mask n + (if CPU_ISSET n mask then 1 else 0)

/-- Embedding of `linux_sched_getaffinity`: return `-1` when the affinity
query fails, otherwise run the counting loop over indices `0 ≤ i < nproc`
(`Int.toNat` reflects that a `for` loop from `0` below a non-positive bound
performs no iterations) and return the accumulated count. -/
def linux_sched_getaffinity (env : AffinityEnv) : Int :=
  match env.maskResult with
  | none => -1
  | some mask => ((countSetBits mask env.nproc.toNat : Nat) : Int)

/-- State of the loop variables `i` and `count` (both C `long`s). -/
structure LoopState where
  i : Int
  count : Int

/-- One iteration of the loop body: test `CPU_ISSET(i, &mask)`, bump `count`
when set, and increment `i`. -/
def loopStep (mask : cpu_set_t) (s : LoopState) : LoopState :=
  if CPU_ISSET s.i.toNat mask then ⟨s.i + 1, s.count + 1⟩ else ⟨s.i + 1, s.count⟩

/-- Model of the read-only OS call `sched_getaffinity(0, sizeof(cpu_set_t),
&mask)` in explicit state-passing style: it reads the affinity state of the
environment and leaves the OS-observable state unchanged (the only write in
the C call is to the caller's local `mask` variable). -/
def sched_getaffinity_call (env : AffinityEnv) : Option cpu_set_t × AffinityEnv :=
  (env.maskResult, env)

/-- Model of the read-only OS call `sysconf(_SC_NPROCESSORS_ONLN)` in
explicit state-passing style: it reads the online-CPU count and leaves the
OS-observable state unchanged. -/
def sysconf_nprocessors_onln (env : AffinityEnv) : Int × AffinityEnv :=
  (env.nproc, env)

/-- State-passing embedding of `linux_sched_getaffinity`: thread the
OS-observable state through the two system calls the body performs, in
source order, returning the function result together with the state after
the call. -/
def linux_sched_getaffinity_run (env : AffinityEnv) : Int × AffinityEnv :=
  let r1 := sched_getaffinity_call env
  match r1.1 with
  | none => (-1, r1.2)
  | some mask =>
      let r2 := sysconf_nprocessors_onln r1.2
      (((countSetBits mask r2.1.toNat : Nat) : Int), r2.2)

lemma countSetBits_le (mask : cpu_set_t) (n : Nat) : countSetBits mask n ≤ n := by
  induction n with
  | zero => simp [countSetBits]
  | succ n ih =>
      unfold countSetBits
      split <;> omega

lemma countSetBits_eq_card (mask : cpu_set_t) (n : Nat) :
    countSetBits mask n =
      ((Finset.range n).filter (fun i => CPU_ISSET i mask = true)).card := by
  induction n with
  | zero => simp [countSetBits]
  | succ n ih =>
      rw [Finset.range_succ, Finset.filter_insert]
      by_cases h : CPU_ISSET n mask = true
      · rw [if_pos h, Finset.card_insert_of_not_mem (by simp)]
        simp [countSetBits, ih, h]
      · rw [if_neg h]
        simp only [countSetBits, ih, h, if_false]
        simp at h
        simp [h]

lemma countSetBits_congr (mask mask' : cpu_set_t) (n : Nat)
    (h : ∀ i < n, CPU_ISSET i mask = CPU_ISSET i mask') :
    countSetBits mask n = countSetBits mask' n := by
  induction n with
  | zero => rfl
  | succ n ih =>
      unfold countSetBits
      rw [ih (fun i hi => h i (Nat.lt_succ_of_lt hi)), h n (Nat.lt_succ_self n)]

lemma countSetBits_eq_of_all (mask : cpu_set_t) (n : Nat)
    (h : ∀ i < n, CPU_ISSET i mask = true) :
    countSetBits mask n = n := by
  induction n with
  | zero => rfl
  | succ n ih =>
      unfold countSetBits
      rw [ih (fun i hi => h i (Nat.lt_succ_of_lt hi)), h n (Nat.lt_succ_self n)]
      simp

lemma countSetBits_succ (mask : cpu_set_t) (n : Nat) :
    countSetBits mask (n + 1) = countSetBits mask n + (if CPU_ISSET n mask then 1 else 0) :=
  rfl

lemma getaffinity_some (env : AffinityEnv) (mask : cpu_set_t)
    (h : env.maskResult = some mask) :
    linux_sched_getaffinity env = ((countSetBits mask env.nproc.toNat : Nat) : Int) := by
  unfold linux_sched_getaffinity
  rw [h]

lemma getaffinity_none (env : AffinityEnv) (h : env.maskResult = none) :
    linux_sched_getaffinity env = -1 := by
  unfold linux_sched_getaffinity
  rw [h]

lemma loopStep_iterate (mask : cpu_set_t) (n : Nat) :
    (loopStep mask)^[n] ⟨0, 0⟩ = ⟨(n : Int), ((countSetBits mask n : Nat) : Int)⟩ := by
  induction n with
  | zero => rfl
  | succ n ih =>
      rw [Function.iterate_succ_apply', ih]
      unfold loopStep
      have hn : ((n : Int)).toNat = n := Int.toNat_natCast n
      rw [hn, countSetBits_succ]
      by_cases h : CPU_ISSET n mask = true
      · simp [h]
      · simp at h
        simp [h]

/-- C1: on a successful affinity query, `linux_sched_getaffinity` returns
exactly the number of indices `i` with `0 ≤ i < onlineCPUCount` for which
bit `i` is set in the retrieved affinity mask. -/
theorem linux_sched_getaffinity_counts_set_bits (env : AffinityEnv) (mask : cpu_set_t)
    (hmask : env.maskResult = some mask) (hnproc : 0 ≤ env.nproc) :
    linux_sched_getaffinity env =
      ((((Finset.range env.nproc.toNat).filter
          (fun i => CPU_ISSET i mask = true)).card : Nat) : Int) := by
  rw [getaffinity_some env mask hmask, countSetBits_eq_card]

theorem linux_sched_getaffinity_counts_set_bits_witness :
    linux_sched_getaffinity ⟨some (fun _ => true), 4⟩ =
      ((((Finset.range (Int.toNat 4)).filter
          (fun i => CPU_ISSET i (fun _ => true) = true)).card : Nat) : Int) :=
  linux_sched_getaffinity_counts_set_bits ⟨some (fun _ => true), 4⟩ (fun _ => true)
    rfl (by decide)

/-- C2: `linux_sched_getaffinity` returns `-1` if and only if the underlying
`sched_getaffinity` query fails; in every other case the return value is
`≥ 0`, so the failure sentinel is distinguishable from every valid count. -/
theorem linux_sched_getaffinity_sentinel_iff_failure (env : AffinityEnv) :
    (linux_sched_getaffinity env = -1 ↔ env.maskResult = none) ∧
    (env.maskResult ≠ none → 0 ≤ linux_sched_getaffinity env) := by
  rcases h : env.maskResult with _ | mask
  · rw [getaffinity_none env h]
    simp
  · rw [getaffinity_some env mask h]
    refine ⟨⟨fun hc => absurd hc (by omega), fun hc => by simp at hc⟩, fun _ => by omega⟩

theorem linux_sched_getaffinity_sentinel_iff_failure_witness :
    (linux_sched_getaffinity ⟨none, 4⟩ = -1 ↔
      (AffinityEnv.mk none 4).maskResult = none) ∧
    ((AffinityEnv.mk none 4).maskResult ≠ none →
      0 ≤ linux_sched_getaffinity ⟨none, 4⟩) :=
  linux_sched_getaffinity_sentinel_iff_failure ⟨none, 4⟩

/-- C3: for every invocation in which the affinity-mask query succeeds, the
returned value lies in the range `[0, onlineCPUCount]`, where
`onlineCPUCount` is the (nonnegative) online logical CPU count obtained from
the separate `sysconf` query. -/
theorem linux_sched_getaffinity_range (env : AffinityEnv) (mask : cpu_set_t)
    (hmask : env.maskResult = some mask) (hnproc : 0 ≤ env.nproc) :
    0 ≤ linux_sched_getaffinity env ∧ linux_sched_getaffinity env ≤ env.nproc := by
  rw [getaffinity_some env mask hmask]
  have h := countSetBits_le mask env.nproc.toNat
  omega

theorem linux_sched_getaffinity_range_witness :
    0 ≤ linux_sched_getaffinity ⟨some (fun _ => false), 8⟩ ∧
    linux_sched_getaffinity ⟨some (fun _ => false), 8⟩ ≤ 8 :=
  linux_sched_getaffinity_range ⟨some (fun _ => false), 8⟩ (fun _ => false)
    rfl (by decide)

/-- C4: if the affinity mask has exactly `K` bits set among indices below
`onlineCPUCount`, a successful invocation returns `K`; and if every online
CPU index is set in the mask (possible whenever the online count fits the
mask capacity), the returned count equals the online CPU count. -/
theorem linux_sched_getaffinity_restricted_count (env : AffinityEnv) (mask : cpu_set_t)
    (K : Nat) (hmask : env.maskResult = some mask) :
    (((Finset.range env.nproc.toNat).filter
        (fun i => CPU_ISSET i mask = true)).card = K →
      linux_sched_getaffinity env = (K : Int)) ∧
    ((∀ j : Fin CPU_SETSIZE, (j : Nat) < env.nproc.toNat → mask j = true) →
      0 ≤ env.nproc → env.nproc ≤ (CPU_SETSIZE : Int) →
      linux_sched_getaffinity env = env.nproc) := by
  rw [getaffinity_some env mask hmask]
  constructor
  · intro hK
    rw [countSetBits_eq_card, hK]
  · intro hall h0 hcap
    have hle : env.nproc.toNat ≤ CPU_SETSIZE := by omega
    have hbits : ∀ i < env.nproc.toNat, CPU_ISSET i mask = true := by
      intro i hi
      have hcpu : i < CPU_SETSIZE := lt_of_lt_of_le hi hle
      unfold CPU_ISSET
      rw [dif_pos hcpu]
      exact hall ⟨i, hcpu⟩ hi
    rw [countSetBits_eq_of_all mask env.nproc.toNat hbits]
    omega

theorem linux_sched_getaffinity_restricted_count_witness :
    (((Finset.range (Int.toNat 4)).filter
        (fun i => CPU_ISSET i (fun j => decide ((j : Nat) % 2 = 0)) = true)).card = 2 →
      linux_sched_getaffinity ⟨some (fun j => decide ((j : Nat) % 2 = 0)), 4⟩ = (2 : Int)) ∧
    ((∀ j : Fin CPU_SETSIZE, (j : Nat) < Int.toNat 4 →
        (fun j : Fin CPU_SETSIZE => decide ((j : Nat) % 2 = 0)) j = true) →
      0 ≤ (4 : Int) → (4 : Int) ≤ (CPU_SETSIZE : Int) →
      linux_sched_getaffinity ⟨some (fun j => decide ((j : Nat) % 2 = 0)), 4⟩ = 4) :=
  linux_sched_getaffinity_restricted_count
    ⟨some (fun j => decide ((j : Nat) % 2 = 0)), 4⟩
    (fun j => decide ((j : Nat) % 2 = 0)) 2 rfl

/-- C5: once `sched_getaffinity` has succeeded, the error branch is
unreachable: for every possible result of the CPU-count query the function
returns a nonnegative count, never the `-1` sentinel. -/
theorem linux_sched_getaffinity_no_error_after_success (env : AffinityEnv)
    (mask : cpu_set_t) (hmask : env.maskResult = some mask) :
    linux_sched_getaffinity env ≠ -1 ∧ 0 ≤ linux_sched_getaffinity env := by
  rw [getaffinity_some env mask hmask]
  omega

theorem linux_sched_getaffinity_no_error_after_success_witness :
    linux_sched_getaffinity ⟨some (fun _ => true), -3⟩ ≠ -1 ∧
    0 ≤ linux_sched_getaffinity ⟨some (fun _ => true), -3⟩ :=
  linux_sched_getaffinity_no_error_after_success ⟨some (fun _ => true), -3⟩
    (fun _ => true) rfl

/-- C6: if the affinity query succeeds but `sysconf(_SC_NPROCESSORS_ONLN)`
returns a negative value or zero, the function returns `0` — a value
indistinguishable from a valid count of zero CPUs — rather than the `-1`
sentinel. -/
theorem linux_sched_getaffinity_zero_on_bad_nproc (env : AffinityEnv)
    (mask : cpu_set_t) (hmask : env.maskResult = some mask)
    (hnproc : env.nproc ≤ 0) :
    linux_sched_getaffinity env = 0 ∧ linux_sched_getaffinity env ≠ -1 := by
  rw [getaffinity_some env mask hmask]
  have h0 : env.nproc.toNat = 0 := by omega
  rw [h0]
  exact ⟨rfl, by omega⟩

theorem linux_sched_getaffinity_zero_on_bad_nproc_witness :
    linux_sched_getaffinity ⟨some (fun _ => true), -1⟩ = 0 ∧
    linux_sched_getaffinity ⟨some (fun _ => true), -1⟩ ≠ -1 :=
  linux_sched_getaffinity_zero_on_bad_nproc ⟨some (fun _ => true), -1⟩
    (fun _ => true) rfl (by decide)

/-- C7: `linux_sched_getaffinity` has no side effects: in the state-passing
embedding the OS-observable state after the call equals the state before it
(the body performs only read-only queries), a repeated invocation on the
resulting state returns the same value, and the state-passing embedding
computes the same result as the direct embedding. -/
theorem linux_sched_getaffinity_no_side_effects (env : AffinityEnv) :
    (linux_sched_getaffinity_run env).2 = env ∧
    (linux_sched_getaffinity_run ((linux_sched_getaffinity_run env).2)).1 =
      (linux_sched_getaffinity_run env).1 ∧
    (linux_sched_getaffinity_run env).1 = linux_sched_getaffinity env := by
  rcases h : env.maskResult with _ | mask
  · refine ⟨?_, ?_, ?_⟩ <;>
      simp [linux_sched_getaffinity_run, sched_getaffinity_call,
        sysconf_nprocessors_onln, linux_sched_getaffinity, h]
  · refine ⟨?_, ?_, ?_⟩ <;>
      simp [linux_sched_getaffinity_run, sched_getaffinity_call,
        sysconf_nprocessors_onln, linux_sched_getaffinity, h]

/-- C8: the result is a deterministic function of only the affinity mask and
online CPU count observed during the call: two invocations observing the
same mask outcome and the same online CPU count return equal values. -/
theorem linux_sched_getaffinity_deterministic (env1 env2 : AffinityEnv)
    (hm : env1.maskResult = env2.maskResult) (hn : env1.nproc = env2.nproc) :
    linux_sched_getaffinity env1 = linux_sched_getaffinity env2 := by
  unfold linux_sched_getaffinity
  rw [hm, hn]

theorem linux_sched_getaffinity_deterministic_witness :
    linux_sched_getaffinity ⟨some (fun _ => true), 2⟩ =
      linux_sched_getaffinity ⟨some (fun _ => true), 2⟩ :=
  linux_sched_getaffinity_deterministic ⟨some (fun _ => true), 2⟩
    ⟨some (fun _ => true), 2⟩ rfl rfl

/-- C9: the function always terminates: for every value of the online CPU
count (zero and negative included), the iteration of the loop body from
`i = 0, count = 0` reaches a state where the loop guard `i < nproc` fails
after finitely many steps, and the count accumulated there is the value the
function returns. -/
theorem linux_sched_getaffinity_terminates (env : AffinityEnv) (mask : cpu_set_t)
    (hmask : env.maskResult = some mask) :
    ∃ k : Nat,
      env.nproc ≤ ((loopStep mask)^[k] ⟨0, 0⟩).i ∧
      ((loopStep mask)^[k] ⟨0, 0⟩).count = linux_sched_getaffinity env := by
  refine ⟨env.nproc.toNat, ?_, ?_⟩
  · rw [loopStep_iterate]
    simp only []
    omega
  · rw [loopStep_iterate, getaffinity_some env mask hmask]

theorem linux_sched_getaffinity_terminates_witness :
    ∃ k : Nat,
      (-5 : Int) ≤ ((loopStep (fun _ => true))^[k] ⟨0, 0⟩).i ∧
      ((loopStep (fun _ => true))^[k] ⟨0, 0⟩).count =
        linux_sched_getaffinity ⟨some (fun _ => true), -5⟩ :=
  linux_sched_getaffinity_terminates ⟨some (fun _ => true), -5⟩ (fun _ => true) rfl

/-- C10: bits set at indices at or above the online CPU count are ignored:
two successful invocations whose masks agree on all indices below the online
CPU count return equal values regardless of higher bits, and the returned
count never exceeds the online CPU count. -/
theorem linux_sched_getaffinity_ignores_high_bits (env env' : AffinityEnv)
    (mask mask' : cpu_set_t)
    (hmask : env.maskResult = some mask) (hmask' : env'.maskResult = some mask')
    (hn : env'.nproc = env.nproc)
    (hagree : ∀ j : Fin CPU_SETSIZE, (j : Nat) < env.nproc.toNat → mask j = mask' j) :
    linux_sched_getaffinity env = linux_sched_getaffinity env' ∧
    linux_sched_getaffinity env ≤ ((env.nproc.toNat : Nat) : Int) := by
  rw [getaffinity_some env mask hmask, getaffinity_some env' mask' hmask', hn]
  constructor
  · have hcongr : ∀ i < env.nproc.toNat, CPU_ISSET i mask = CPU_ISSET i mask' := by
      intro i hi
      unfold CPU_ISSET
      by_cases hcpu : i < CPU_SETSIZE
      · rw [dif_pos hcpu, dif_pos hcpu]
        exact hagree ⟨i, hcpu⟩ hi
      · rw [dif_neg hcpu, dif_neg hcpu]
    rw [countSetBits_congr mask mask' env.nproc.toNat hcongr]
  · have h := countSetBits_le mask env.nproc.toNat
    omega

theorem linux_sched_getaffinity_ignores_high_bits_witness :
    linux_sched_getaffinity ⟨some (fun j => decide ((j : Nat) < 2)), 2⟩ =
      linux_sched_getaffinity ⟨some (fun _ => true), 2⟩ ∧
    linux_sched_getaffinity ⟨some (fun j => decide ((j : Nat) < 2)), 2⟩ ≤
      ((Int.toNat 2 : Nat) : Int) :=
  linux_sched_getaffinity_ignores_high_bits
    ⟨some (fun j => decide ((j : Nat) < 2)), 2⟩ ⟨some (fun _ => true), 2⟩
    (fun j => decide ((j : Nat) < 2)) (fun _ => true) rfl rfl rfl
    (by intro j hj; simp at hj ⊢; omega)
